import Mathlib

/-!
Shallow embedding of the analysis core of the Open-Tuning-Tool repository:
src/fpv_tuner/analysis/tuning.py, src/fpv_tuner/analysis/step_response.py and
src/fpv_tuner/analysis/noise.py.

Modelling conventions:
* Python floats are modelled as exact rationals; a float NaN is modelled as
  Option.none wherever it can actually arise.
* Python dicts with string keys and numeric values are insertion-ordered
  association lists.
* Functions that can raise an uncaught exception return Except; functions that
  can return a None sentinel return Option.
-/

namespace OpenTuner

/-- Python int() applied to a real number: truncation toward zero. -/
def pyInt (q : ℚ) : ℤ :=
  if 0 ≤ q then ⌊q⌋ else ⌈q⌉

/-- numpy/pandas mean of a list of rationals: sum divided by length. The
callers embedded here only apply it to nonempty lists. -/
def npMean (xs : List ℚ) : ℚ := xs.sum / xs.length

/-- numpy max of a list of rationals; callers only use nonempty lists. -/
def npMax : List ℚ → ℚ
  | [] => 0
  | x :: xs => xs.foldl max x

/-- A Python dict with string keys and numeric values, as an insertion-ordered
association list (keys are unique in every dict built by this code). -/
abbrev Dict := List (String × ℚ)

/-- Python key lookup: the binding of the first matching key, if any. -/
def dictGet? (d : Dict) (k : String) : Option ℚ :=
  (d.find? (fun p => p.1 == k)).map (fun p => p.2)

/-- Python dict.get(k, dflt). -/
def dictGet (d : Dict) (k : String) (dflt : ℚ) : ℚ :=
  (dictGet? d k).getD dflt

/-- Python item assignment d[k] = v: replace the first binding of k in place,
or append a new binding at the end. -/
def dictSet : Dict → String → ℚ → Dict
  | [], k, v => [(k, v)]
  | p :: rest, k, v => if p.1 == k then (k, v) :: rest else p :: dictSet rest k v

/-! ## noise.py -/

/-- Mean inter-sample interval in seconds: pandas Series.diff gives a leading
NaN which Series.mean skips, so this is the mean of the n-1 forward
differences, each divided by 1e6. -/
def meanInterval (ts : List ℚ) : ℚ :=
  npMean ((ts.zip ts.tail).map (fun p => (p.2 - p.1) / 1000000))

/-- noise.py get_sampling_frequency: estimated sampling frequency in Hz from a
timestamp series in microseconds. In exact rational arithmetic the pd.isna
test on the mean can never fire, so only the sign test remains. -/
def get_sampling_frequency (ts : List ℚ) : ℚ :=
  if ts.length < 2 then 2000
  else if meanInterval ts ≤ 0 then
    let total_duration := ((ts.getLast?).getD 0 - (ts.head?).getD 0) / 1000000
    if 0 < total_duration then ((ts.length : ℚ) - 1) / total_duration
    else 2000
  else 1 / meanInterval ts

/-! ## step_response.py -/

/-- A detected step window (start_index, step_index, end_index). The source
stores Python ints, modelled as integers. -/
abbrev StepWindow := ℤ × ℤ × ℤ

/-- The sampling frequency computed inside find_step_responses:
fs = len(time_us) / (time_s[-1] - time_s[0]) with time_s = time_us / 1e6. -/
def detectorFs (time_us : List ℚ) : ℚ :=
  (time_us.length : ℚ) /
    ((time_us.getLast?).getD 0 / 1000000 - (time_us.head?).getD 0 / 1000000)

/-- Indices whose absolute first difference exceeds the threshold:
rc_command.diff().abs() followed by selection of the index labels above the
threshold. The leading NaN of pandas diff fails the comparison, so only
indices 1..n-1 can appear; the labels are the default RangeIndex. -/
def potentialSteps (rc : List ℚ) (threshold : ℚ) : List ℕ :=
  (List.range rc.length).filter (fun i =>
    decide (0 < i) && decide (threshold < |rc.getD i 0 - rc.getD (i - 1) 0|))

/-- The accumulation loop of find_step_responses over the potential step
indices: skip an index when it lies inside the previously accepted window,
when the pre-window would run off the start, or when the post-window would run
off the end; otherwise accept (i - pre, i, i + post) whenever
end_idx - i exceeds the minimum duration, updating last_step_end. -/
def stepLoop (len pre post minDur : ℤ) : List ℕ → ℤ → List StepWindow
  | [], _ => []
  | i :: rest, lastEnd =>
    if (i : ℤ) ≤ lastEnd ∨ (i : ℤ) < pre ∨ len ≤ (i : ℤ) + post then
      stepLoop len pre post minDur rest lastEnd
    else
      if minDur < ((i : ℤ) + post) - (i : ℤ) then
        ((i : ℤ) - pre, (i : ℤ), (i : ℤ) + post) ::
          stepLoop len pre post minDur rest ((i : ℤ) + post)
      else stepLoop len pre post minDur rest lastEnd

/-- step_response.py find_step_responses. Window sizes in milliseconds are
converted to sample counts through int((ms / 1000.0) * fs). -/
def find_step_responses (rc time_us : List ℚ)
    (threshold min_step_duration_ms pre_step_flat_ms post_step_flat_ms : ℚ) :
    List StepWindow :=
  if rc.isEmpty then []
  else
    let fs := detectorFs time_us
    let pre_indices := pyInt (pre_step_flat_ms / 1000 * fs)
    let post_indices := pyInt (post_step_flat_ms / 1000 * fs)
    let min_duration_indices := pyInt (min_step_duration_ms / 1000 * fs)
    stepLoop (rc.length : ℤ) pre_indices post_indices min_duration_indices
      (potentialSteps rc threshold) (-1)

/-! ## tuning.py: profiles and the gain validator -/

/-- A drone profile: the inertia of the plant model and the absolute safe
ranges, as in the DRONE_PROFILES table (fitness weights are modelled
separately where they are consumed). -/
structure DroneProfile where
  inertia : ℚ
  safe_ranges : List (String × (ℚ × ℚ))

/-- The "Default" entry of DRONE_PROFILES. -/
def defaultProfile : DroneProfile :=
  { inertia := 5/1000
    safe_ranges :=
      [("p_roll", (20, 150)), ("i_roll", (20, 150)), ("d_roll", (10, 100)),
       ("p_pitch", (20, 150)), ("i_pitch", (20, 150)), ("d_pitch", (10, 100)),
       ("p_yaw", (20, 150)), ("i_yaw", (20, 150)), ("d_yaw", (0, 50))] }

/-- A validation warning. The source emits formatted strings; each warning is
modelled by its kind, the offending key and the offending quantity (the ratio
for relative warnings, the value for absolute ones). -/
inductive Warning where
  | relative (key : String) (r : ℚ)
  | absolute (key : String) (value : ℚ)
deriving DecidableEq

/-- Test for key.startswith(("p_", "i_", "d_")), computed on the character
sequences of the strings. -/
def gainKeyStart (key : String) : Bool :=
  "p_".toList.isPrefixOf key.toList || "i_".toList.isPrefixOf key.toList ||
    "d_".toList.isPrefixOf key.toList

/-- tuning.py validate_settings: the relative (multiplier) check over the
proposed keys followed by the absolute check over the profile safe ranges.
Every dict value is numeric in this model, so the isinstance guard of the
absolute check never skips. -/
def validate_settings (proposed_pids original_pids : Dict) (drone_profile : DroneProfile) :
    List Warning :=
  let relWarnings := proposed_pids.filterMap (fun p =>
    match dictGet? original_pids p.1 with
    | some orig =>
      if 0 < orig ∧ gainKeyStart p.1 then
        if ¬ (1/2 ≤ p.2 / orig ∧ p.2 / orig ≤ 17/10) then
          some (Warning.relative p.1 (p.2 / orig))
        else none
      else none
    | none => none)
  let absWarnings := drone_profile.safe_ranges.filterMap (fun r =>
    match dictGet? proposed_pids r.1 with
    | some value =>
      if ¬ (r.2.1 ≤ value ∧ value ≤ r.2.2) then
        some (Warning.absolute r.1 value)
      else none
    | none => none)
  relWarnings ++ absWarnings

/-! ## tuning.py: fitness -/

/-- A metric value: Option.none models a Python float NaN. -/
abbrev MetricVal := Option ℚ

/-- The metrics dict built by calculate_response_metrics: the four keys are
always present, each possibly NaN. An empty metrics dict (returned for an
empty response) is modelled as Option.none at the consumer. -/
structure Metrics where
  overshoot : MetricVal
  rise_time : MetricVal
  settling_time : MetricVal
  oscillation : MetricVal
deriving DecidableEq

/-- The fitness_weights mapping of a drone profile. -/
structure FitnessWeights where
  overshoot : ℚ
  settling : ℚ
  rise_time : ℚ
  oscillation : ℚ
deriving DecidableEq

/-- NaN-propagating float addition. -/
def mvAdd : MetricVal → MetricVal → MetricVal
  | some a, some b => some (a + b)
  | _, _ => none

/-- NaN-propagating float multiplication by a plain number on the right. -/
def mvMul (v : MetricVal) (c : ℚ) : MetricVal := v.map (fun x => x * c)

/-- Python comparison v > c: False whenever v is NaN. -/
def mvGtB (v : MetricVal) (c : ℚ) : Bool :=
  match v with
  | some a => decide (c < a)
  | none => false

/-- The result of the fitness computation: the float inf sentinel or a score
(itself possibly NaN when a finite metric entered the sum as NaN). -/
inductive Fitness where
  | inf
  | score (v : MetricVal)
deriving DecidableEq

/-- tuning.py _calculate_fitness: inf for an empty metrics dict, inf when the
settling time is NaN or the overshoot exceeds 100, otherwise the weighted sum
overshoot * w_overshoot + settling * 100 * w_settling
+ rise * 100 * w_rise_time + oscillation * w_oscillation. -/
def calculate_fitness : Option Metrics → FitnessWeights → Fitness
  | none, _ => Fitness.inf
  | some m, weights =>
    if m.settling_time = none ∨ mvGtB m.overshoot 100 then Fitness.inf
    else
      Fitness.score
        (mvAdd (mvAdd (mvAdd (mvMul m.overshoot weights.overshoot)
          (mvMul (mvMul m.settling_time 100) weights.settling))
          (mvMul (mvMul m.rise_time 100) weights.rise_time))
          (mvMul m.oscillation weights.oscillation))

/-! ## tuning.py: sliders -/

/-- The five slider multipliers; the source reads them from a dict with
sliders.get(key, 1.0), so a mapping that lacks a key behaves as that field
being 1. -/
structure Sliders where
  master : ℚ
  tracking : ℚ
  drift : ℚ
  damp : ℚ
  ff : ℚ
deriving DecidableEq

/-- tuning.py _compute_pids_from_sliders: copy the base gains, then for each
axis store int-truncated products for the P, I, D and FF terms, with a base
gain read through base_pids.get(key, 0). -/
def compute_pids_from_sliders (base_pids : Dict) (sliders : Sliders) : Dict :=
  let m := sliders.master
  let t := sliders.tracking
  let drift := sliders.drift
  let damp := sliders.damp
  let ff := sliders.ff
  ["roll", "pitch", "yaw"].foldl (fun pids axis =>
    let pids := dictSet pids ("p_" ++ axis)
      ((pyInt (m * t * dictGet base_pids ("p_" ++ axis) 0) : ℤ) : ℚ)
    let pids := dictSet pids ("i_" ++ axis)
      ((pyInt (m * t * drift * dictGet base_pids ("i_" ++ axis) 0) : ℤ) : ℚ)
    let pids := dictSet pids ("d_" ++ axis)
      ((pyInt (m * damp * dictGet base_pids ("d_" ++ axis) 0) : ℤ) : ℚ)
    dictSet pids ("f_" ++ axis)
      ((pyInt (m * ff * dictGet base_pids ("f_" ++ axis) 0) : ℤ) : ℚ))
    base_pids

/-- tuning.py tune_with_sliders. The body of its iteration loop executes
validate_settings(current_pids, drone_profile): a two-argument call of the
three-parameter function validate_settings(proposed_pids, original_pids,
drone_profile), so the first iteration raises TypeError before any warning
can be inspected; Except.error models the uncaught exception escaping the
call. With iterations = 0 the loop body never runs and the function returns
the gains computed from the initial all-ones sliders. -/
def tune_with_sliders (base_pids : Dict) (drone_profile : DroneProfile)
    (axis_to_tune : String) (iterations : ℕ) : Except String (Dict × Sliders) :=
  let sliders : Sliders := ⟨1, 1, 1, 1, 1⟩
  match iterations with
  | 0 => Except.ok (compute_pids_from_sliders base_pids sliders, sliders)
  | _ + 1 =>
    let _current_pids := compute_pids_from_sliders base_pids sliders
    Except.error
      "TypeError: validate_settings() missing 1 required positional argument: drone_profile"

/-! ## overshoot computations of the two response-metrics routines -/

/-- The overshoot field computed by tuning.py calculate_response_metrics
(lines 473-479): the final value is the mean of the last 10% of the response
(from index int(len * 0.9)), the peak is the maximum of the whole response,
and the divisor is the final value alone, guarded against final == 0. -/
def calculate_response_metrics_overshoot (response : List ℚ) : ℚ :=
  let final_value_start_index := (pyInt ((response.length : ℚ) * (9/10))).toNat
  let final_value := npMean (response.drop final_value_start_index)
  let peak_value := npMax response
  if final_value ≠ 0 then (peak_value - final_value) / final_value * 100 else 0

/-- The overshoot computed by step_response.py step_response_metrics
(lines 74-90): initial/final output levels are the means of the first and the
last (up to) ten samples, the divisor is final - initial, guarded against a
zero denominator. -/
def step_response_metrics_overshoot (output_signal : List ℚ) : ℚ :=
  let val_i_out := npMean (output_signal.take 10)
  let val_f_out := npMean (output_signal.drop (output_signal.length - 10))
  let peak_val := npMax output_signal
  if val_f_out - val_i_out ≠ 0 then
    (peak_val - val_f_out) / (val_f_out - val_i_out) * 100
  else 0

/-- Modelled from the claim wording for comparison: overshoot equals
(peak - final) / (final - initial) * 100 where the initial/final output
level is the mean of the first/last samples, and equals 0 when the final
level equals the initial level. -/
def claimOvershoot (output_signal : List ℚ) : ℚ :=
  let initial := npMean (output_signal.take 10)
  let final := npMean (output_signal.drop (output_signal.length - 10))
  let peak := npMax output_signal
  if final = initial then 0 else (peak - final) / (final - initial) * 100

/-! ## tuning.py: the plant simulator -/

/-- Fixed gain scaling constants of simulate_step_response. -/
def P_SCALE : ℚ := 1/100

/-- Fixed gain scaling constant for the integral term. -/
def I_SCALE : ℚ := 5/1000

/-- Fixed gain scaling constant for the derivative term. -/
def D_SCALE : ℚ := 1/10000

/-- numpy linspace(0, duration, n): n points from 0 to duration inclusive,
spaced duration / (n - 1) apart. -/
def linspace (duration : ℚ) (n : ℕ) : List ℚ :=
  (List.range n).map (fun i => duration * i / ((n : ℚ) - 1))

/-- The disturbance trigger of simulate_step_response at loop index i:
disturbance_magnitude > 0 and disturbance_time > 0 and
disturbance_time <= t[i] < disturbance_time + dt, where dt is
duration / time_steps while t[i] comes from linspace(0, duration, time_steps),
whose spacing is duration / (time_steps - 1). -/
def disturbanceActive (duration : ℚ) (time_steps : ℕ) (dMag dTime : ℚ) (i : ℕ) : Bool :=
  let dt := duration / time_steps
  let ti := duration * i / ((time_steps : ℚ) - 1)
  decide (0 < dMag) && decide (0 < dTime) && decide (dTime ≤ ti) && decide (ti < dTime + dt)

/-- The number of loop indices of one simulate_step_response run at which the
disturbance impulse is added to the acceleration. -/
def disturbanceStepCount (duration : ℚ) (time_steps : ℕ) (dMag dTime : ℚ) : ℕ :=
  ((List.range time_steps).filter (disturbanceActive duration time_steps dMag dTime)).length

/-- The mutable state threaded through the simulation loop. -/
structure SimState where
  position : ℚ
  velocity : ℚ
  integral : ℚ
  previous_error : ℚ
  d_term_filtered : ℚ

/-- The output traces of simulate_step_response. -/
structure SimTrace where
  time : List ℚ
  response : List ℚ
  p_trace : List ℚ
  i_trace : List ℚ
  d_trace : List ℚ
deriving DecidableEq

/-- One iteration of the simulate_step_response loop at index i, returning the
updated state together with the (response, p, i, d) samples stored there. -/
def simStep (Kp Ki Kd dt d_lpf_alpha inertia duration : ℚ) (time_steps : ℕ)
    (noise : ℕ → ℚ) (dMag dTime : ℚ) (i : ℕ) (st : SimState) :
    SimState × (ℚ × ℚ × ℚ × ℚ) :=
  let setpoint : ℚ := 1
  let measured_position := st.position + noise i
  let error := setpoint - measured_position
  let integral := st.integral + error * dt
  let derivative := (error - st.previous_error) / dt
  let d_term_filtered := st.d_term_filtered + d_lpf_alpha * (derivative - st.d_term_filtered)
  let p_term := Kp * error
  let i_term := Ki * integral
  let d_term := Kd * d_term_filtered
  let controller_output := p_term + i_term + d_term
  let acceleration :=
    if disturbanceActive duration time_steps dMag dTime i then
      controller_output / inertia + dMag / inertia
    else controller_output / inertia
  let velocity := st.velocity + acceleration * dt
  let position := st.position + velocity * dt
  (⟨position, velocity, integral, error, d_term_filtered⟩, (position, p_term, i_term, d_term))

/-- tuning.py simulate_step_response in exact arithmetic.

The noise argument models the sampled values of np.random.normal(0,
noise_level); with the default noise_level = 0.0 every draw is exactly 0.0.
The piVal argument stands for np.pi, which is irrational and therefore passed
in as a parameter; it is only consulted when the gain set configures a
positive dterm_lpf1_static_hz.

The source wraps the gain lookups in try/except and returns the None sentinel
from the except arm, but the lookups use pids.get(key, 0), which never raises
for a missing key, and every value of this model is numeric, so the arm is
unreachable and the function always returns a trace. -/
def simulate_step_response (pids : Dict) (axis : String) (inertia duration : ℚ)
    (time_steps : ℕ) (noise : ℕ → ℚ) (disturbance_magnitude disturbance_time : ℚ)
    (piVal : ℚ) : Option SimTrace :=
  let Kp := dictGet pids ("p_" ++ axis) 0 * P_SCALE
  let Ki := dictGet pids ("i_" ++ axis) 0 * I_SCALE
  let Kd := dictGet pids ("d_" ++ axis) 0 * D_SCALE
  let dt := duration / time_steps
  let t := linspace duration time_steps
  let d_lpf_hz := dictGet pids "dterm_lpf1_static_hz" 0
  let d_lpf_alpha := if 0 < d_lpf_hz then dt / (dt + 1 / (2 * piVal * d_lpf_hz)) else 1
  let samples :=
    ((List.range time_steps).foldl
      (fun (acc : SimState × List (ℚ × ℚ × ℚ × ℚ)) i =>
        let r := simStep Kp Ki Kd dt d_lpf_alpha inertia duration time_steps noise
          disturbance_magnitude disturbance_time i acc.1
        (r.1, r.2 :: acc.2))
      (⟨0, 0, 0, 0, 0⟩, [])).2.reverse
  some
    { time := t
      response := samples.map (fun s => s.1)
      p_trace := samples.map (fun s => s.2.1)
      i_trace := samples.map (fun s => s.2.2.1)
      d_trace := samples.map (fun s => s.2.2.2) }

/-! ## concrete inputs used by the theorems below -/

/-- The synthetic command of the step-detector claim: flat at 0 for 1000
samples, then flat at 500 for 1000 samples. -/
def c6Signal : List ℚ := List.replicate 1000 0 ++ List.replicate 1000 500

/-- Timestamps in microseconds for the synthetic command at 2000 Hz. -/
def c6Time : List ℚ := (List.range 2000).map (fun i : ℕ => 500 * (i : ℚ))

/-- A command trace with two sharp rises four samples apart. -/
def rc11 : List ℚ := [0, 0, 100, 100, 100, 100, 200, 200, 200, 200, 200]

/-- Timestamps in microseconds at 1 ms spacing for rc11. -/
def t11 : List ℚ := (List.range 11).map (fun i : ℕ => 1000 * (i : ℚ))

/-- A response slice whose initial level is 1, final level 3, peak 5. -/
def xs25 : List ℚ := List.replicate 10 1 ++ (5 :: List.replicate 4 3) ++ List.replicate 10 3

/-- Modelled from the claim wording: the settling time of a metrics result is
undefined when the metrics dict is empty or its settling entry is NaN. -/
def settlingUndefined : Option Metrics → Prop
  | none => True
  | some m => m.settling_time = none

/-- Modelled from the claim wording: the overshoot of a metrics result
exceeds 100%. -/
def overshootAbove100 : Option Metrics → Prop
  | none => False
  | some m => ∃ q, m.overshoot = some q ∧ 100 < q

/-! ## Helper lemmas -/

theorem pyInt_nonneg {q : ℚ} (h : 0 ≤ q) : 0 ≤ pyInt q := by
  unfold pyInt
  rw [if_pos h]
  exact Int.floor_nonneg.mpr h

theorem filter_range_length_le_one (p : ℕ → Bool) (n : ℕ)
    (h : ∀ i j, i < n → j < n → p i = true → p j = true → i = j) :
    ((List.range n).filter p).length ≤ 1 := by
  cases hF : (List.range n).filter p with
  | nil => simp
  | cons a tl =>
    cases tl with
    | nil => simp
    | cons b rest =>
      exfalso
      have hnd : ((List.range n).filter p).Nodup := List.Nodup.filter _ (List.nodup_range n)
      rw [hF] at hnd
      have hab : a ≠ b := by
        rw [List.nodup_cons] at hnd
        intro e
        exact hnd.1 (by rw [e]; exact List.mem_cons_self _ _)
      have ha := List.mem_filter.mp (hF ▸ (List.mem_cons_self a (b :: rest)))
      have hb := List.mem_filter.mp
        (hF ▸ (List.mem_cons_of_mem a (List.mem_cons_self b rest)))
      exact hab (h a b (List.mem_range.mp ha.1) (List.mem_range.mp hb.1) ha.2 hb.2)

/-- C7: get_sampling_frequency always returns a positive frequency without
raising: 2000 Hz for fewer than two samples, the reciprocal of the mean
inter-sample interval when that mean is positive, and otherwise the
(n-1)/total_duration fallback guarded by the final 2000 Hz default. -/
theorem get_sampling_frequency_spec (ts : List ℚ) :
    0 < get_sampling_frequency ts ∧
    (ts.length < 2 → get_sampling_frequency ts = 2000) ∧
    (0 < meanInterval ts → 2 ≤ ts.length →
      get_sampling_frequency ts = 1 / meanInterval ts) ∧
    (2 ≤ ts.length → meanInterval ts ≤ 0 →
      get_sampling_frequency ts =
        if 0 < ((ts.getLast?).getD 0 - (ts.head?).getD 0) / 1000000 then
          ((ts.length : ℚ) - 1) / (((ts.getLast?).getD 0 - (ts.head?).getD 0) / 1000000)
        else 2000) := by
  unfold get_sampling_frequency
  by_cases h1 : ts.length < 2
  · rw [if_pos h1]
    exact ⟨by norm_num, fun _ => rfl, fun _ h => absurd h1 (by omega), fun h _ => absurd h1 (by omega)⟩
  · rw [if_neg h1]
    by_cases h2 : meanInterval ts ≤ 0
    · rw [if_pos h2]
      refine ⟨?_, fun h => absurd h h1, fun hm _ => absurd h2 (not_le.mpr hm), fun _ _ => rfl⟩
      by_cases h3 : 0 < ((ts.getLast?).getD 0 - (ts.head?).getD 0) / 1000000
      · rw [if_pos h3]
        apply div_pos _ h3
        have : (2:ℚ) ≤ (ts.length : ℚ) := by exact_mod_cast not_lt.mp h1
        linarith
      · rw [if_neg h3]; norm_num
    · rw [if_neg h2]
      have hm : 0 < meanInterval ts := lt_of_not_le h2
      exact ⟨by positivity, fun h => absurd h h1, fun _ _ => rfl, fun _ h => absurd h h2⟩

/-- C7 witness: a two-sample series at 500 microsecond spacing takes the
reciprocal-of-mean branch and yields a positive frequency. -/
theorem get_sampling_frequency_spec_witness :
    0 < get_sampling_frequency [0, 500] ∧
    get_sampling_frequency [0, 500] = 1 / meanInterval [0, 500] :=
  ⟨(get_sampling_frequency_spec [0, 500]).1,
   (get_sampling_frequency_spec [0, 500]).2.2.1
     (by norm_num [meanInterval, npMean]) (by norm_num)⟩

/-- C1: calling the simulator with an empty gain set and axis roll does not
return the None sentinel promised by its docstring for missing PIDs; it
simulates the zero-gain plant and returns the all-zero response trace. -/
theorem simulate_step_response_missing_axis_trace :
    simulate_step_response [] "roll" (5/1000) 1 5 (fun _ => 0) 0 0 0 =
      some ⟨[0, 1/4, 1/2, 3/4, 1], List.replicate 5 0, List.replicate 5 0,
            List.replicate 5 0, List.replicate 5 0⟩ := by
  have hr : List.range 5 = [0, 1, 2, 3, 4] := by decide
  norm_num [simulate_step_response, simStep, linspace, disturbanceActive,
    dictGet, dictGet?, hr, List.find?, List.replicate]

/-- C2: for every base gain set, profile, axis and positive iteration budget,
tune_with_sliders raises (the two-argument call of the three-parameter
validate_settings) instead of returning a gain set and sliders. -/
theorem tune_with_sliders_raises (base_pids : Dict) (drone_profile : DroneProfile)
    (axis_to_tune : String) (n : ℕ) :
    ∃ msg, tune_with_sliders base_pids drone_profile axis_to_tune (n + 1) =
      Except.error msg :=
  ⟨_, rfl⟩

/-- C4 counterexample: with the default 1000 time steps over a duration of 1,
the disturbance time 1/999000 lies strictly between 0 and the duration and the
magnitude is positive, yet the impulse fires at no loop index: the trigger
interval has length dt = 1/1000, shorter than the linspace spacing 1/999. -/
theorem disturbance_skipped_counterexample :
    0 < (1/999000 : ℚ) ∧ (1/999000 : ℚ) < 1 ∧
    disturbanceStepCount 1 1000 1 (1/999000) = 0 := by
  refine ⟨by norm_num, by norm_num, ?_⟩
  unfold disturbanceStepCount
  rw [List.filter_eq_nil_iff.mpr, List.length_nil]
  intro i hi
  rw [List.mem_range] at hi
  simp only [disturbanceActive, Bool.and_eq_true, decide_eq_true_eq]
  rintro ⟨⟨⟨-, -⟩, hlow⟩, hupp⟩
  rcases Nat.eq_zero_or_pos i with rfl | hpos
  · norm_num at hlow
  · have h1 : (1:ℚ) ≤ (i:ℚ) := by exact_mod_cast hpos
    norm_num at hupp
    linarith

/-- Indices at which the disturbance trigger holds are unique, because the
trigger interval is shorter than the time-grid spacing. -/
theorem disturbanceActive_unique (duration : ℚ) (n : ℕ) (dMag dTime : ℚ)
    (hd : 0 < duration) {i j : ℕ} (hi : i < n) (hj : j < n)
    (hai : disturbanceActive duration n dMag dTime i = true)
    (haj : disturbanceActive duration n dMag dTime j = true) : i = j := by
  by_contra hne
  wlog hij : i < j generalizing i j
  · exact this hj hi haj hai (Ne.symm hne) (by omega)
  have hn2 : 2 ≤ n := by omega
  have hc : (0:ℚ) < (n:ℚ) - 1 := by
    have : (2:ℚ) ≤ (n:ℚ) := by exact_mod_cast hn2
    linarith
  have hnq : (0:ℚ) < (n:ℚ) := by linarith
  simp only [disturbanceActive, Bool.and_eq_true, decide_eq_true_eq] at hai haj
  obtain ⟨⟨⟨_, _⟩, hi1⟩, _⟩ := hai
  obtain ⟨⟨⟨_, _⟩, _⟩, hj2⟩ := haj
  have hdiff : duration * (j:ℚ) / ((n:ℚ) - 1) - duration * (i:ℚ) / ((n:ℚ) - 1) <
      duration / (n:ℚ) := by linarith
  have hji : (1:ℚ) ≤ (j:ℚ) - (i:ℚ) := by
    have : i + 1 ≤ j := hij
    have h' : ((i:ℚ) + 1) ≤ (j:ℚ) := by exact_mod_cast this
    linarith
  have hab : duration ≤ duration * ((j:ℚ) - (i:ℚ)) := by nlinarith
  have hstep : duration / ((n:ℚ) - 1) ≤
      duration * (j:ℚ) / ((n:ℚ) - 1) - duration * (i:ℚ) / ((n:ℚ) - 1) := by
    rw [div_sub_div_same, ← mul_sub]
    exact (div_le_div_iff_of_pos_right hc).mpr hab
  have hmono : duration / (n:ℚ) < duration / ((n:ℚ) - 1) :=
    div_lt_div_of_pos_left hd hc (by linarith)
  linarith

/-- C4 amended: the disturbance impulse is added at at most one loop index of
any simulate_step_response run, for every positive duration. -/
theorem disturbance_at_most_one_step (duration : ℚ) (time_steps : ℕ) (dMag dTime : ℚ)
    (hd : 0 < duration) :
    disturbanceStepCount duration time_steps dMag dTime ≤ 1 := by
  unfold disturbanceStepCount
  exact filter_range_length_le_one _ _
    (fun i j hi hj hpi hpj => disturbanceActive_unique duration time_steps dMag dTime hd hi hj hpi hpj)

/-- C4 witness: a run where the impulse fires exactly once still satisfies the
at-most-one bound. -/
theorem disturbance_at_most_one_step_witness :
    disturbanceStepCount 1 4 1 (1/8) ≤ 1 :=
  disturbance_at_most_one_step 1 4 1 (1/8) (by norm_num)

/-- C5 counterexample: on xs25 the overshoot of calculate_response_metrics is
(5-3)/3*100 = 200/3, not the claimed (peak-final)/(final-initial)*100 = 100:
that routine divides by the final level alone. -/
theorem overshoot_formula_counterexample :
    calculate_response_metrics_overshoot xs25 = 200/3 ∧
    claimOvershoot xs25 = 100 ∧
    calculate_response_metrics_overshoot xs25 ≠ claimOvershoot xs25 := by
  have h25 : xs25 = [1, 1, 1, 1, 1, 1, 1, 1, 1, 1, 5, 3, 3, 3, 3,
      3, 3, 3, 3, 3, 3, 3, 3, 3, 3] := by
    norm_num [xs25, List.replicate]
  have h1 : calculate_response_metrics_overshoot xs25 = 200/3 := by
    rw [h25]
    norm_num [calculate_response_metrics_overshoot, npMean, npMax, pyInt,
      List.length, List.drop, List.sum_cons, Int.toNat]
  have h2 : claimOvershoot xs25 = 100 := by
    rw [h25]
    norm_num [claimOvershoot, npMean, npMax, List.length, List.drop,
      List.take, List.sum_cons]
  exact ⟨h1, h2, by rw [h1, h2]; norm_num⟩

/-- C5 amended: step_response_metrics computes overshoot exactly by the
claimed formula (peak - final)/(final - initial)*100 with mean-of-first-ten
and mean-of-last-ten levels, 0 when the two levels coincide. -/
theorem step_response_overshoot_matches_formula (output_signal : List ℚ)
    (hne : output_signal ≠ []) :
    step_response_metrics_overshoot output_signal = claimOvershoot output_signal := by
  unfold step_response_metrics_overshoot claimOvershoot
  rcases eq_or_ne (npMean (output_signal.drop (output_signal.length - 10)))
      (npMean (output_signal.take 10)) with he | hd
  · rw [if_neg, if_pos he]
    rw [he]
    simp
  · rw [if_pos (sub_ne_zero.mpr hd), if_neg hd]

/-- C5 amended witness: a concrete two-sample slice. -/
theorem step_response_overshoot_matches_formula_witness :
    step_response_metrics_overshoot [0, 1] = claimOvershoot [0, 1] :=
  step_response_overshoot_matches_formula [0, 1] (by simp)

/-- C3: the fitness evaluator returns the infeasible sentinel exactly when the
settling time is undefined or the overshoot exceeds 100%, and otherwise the
weighted sum overshoot*w_o + settling*100*w_s + rise*100*w_r + osc*w_osc. -/
theorem calculate_fitness_spec (metrics : Option Metrics) (w : FitnessWeights) :
    (calculate_fitness metrics w = Fitness.inf ↔
      settlingUndefined metrics ∨ overshootAbove100 metrics) ∧
    (∀ o r s c : ℚ, metrics = some ⟨some o, some r, some s, some c⟩ → o ≤ 100 →
      calculate_fitness metrics w =
        Fitness.score (some (o * w.overshoot + s * 100 * w.settling +
          r * 100 * w.rise_time + c * w.oscillation))) := by
  constructor
  · cases metrics with
    | none => simp [calculate_fitness, settlingUndefined]
    | some m =>
      have hiff : calculate_fitness (some m) w = Fitness.inf ↔
          (m.settling_time = none ∨ mvGtB m.overshoot 100 = true) := by
        simp only [calculate_fitness]
        split_ifs with hc
        · simp [hc]
        · simp [hc]
      rw [hiff]
      simp only [settlingUndefined, overshootAbove100]
      constructor
      · rintro (h | h)
        · exact Or.inl h
        · right
          cases hov : m.overshoot with
          | none => rw [hov] at h; simp [mvGtB] at h
          | some q =>
            rw [hov] at h
            simp only [mvGtB, decide_eq_true_eq] at h
            exact ⟨q, rfl, h⟩
      · rintro (h | ⟨q, hq, hgt⟩)
        · exact Or.inl h
        · right
          rw [hq]
          simp [mvGtB, hgt]
  · rintro o r s c rfl hle
    simp only [calculate_fitness]
    rw [if_neg]
    · simp [mvAdd, mvMul]
    · rintro (h | h)
      · exact Option.noConfusion h
      · simp only [mvGtB, decide_eq_true_eq] at h
        exact absurd h (not_lt.mpr hle)

/-- C3 witness: a fully defined metrics result below the instability limits
produces the plain weighted sum. -/
theorem calculate_fitness_spec_witness :
    calculate_fitness (some ⟨some 10, some (1/10), some (1/2), some 5⟩)
      ⟨1, 1, 1, 1⟩ = Fitness.score (some 75) := by
  have h := (calculate_fitness_spec
    (some ⟨some 10, some (1/10), some (1/2), some 5⟩) ⟨1, 1, 1, 1⟩).2
    10 (1/10) (1/2) 5 rfl (by norm_num)
  rw [h]
  norm_num

theorem dictGet?_dictSet_self (d : Dict) (k : String) (v : ℚ) :
    dictGet? (dictSet d k v) k = some v := by
  induction d with
  | nil => simp [dictSet, dictGet?]
  | cons p rest ih =>
    by_cases h : p.1 == k
    · simp [dictSet, h, dictGet?]
    · simp only [dictSet, h, Bool.false_eq_true, if_false]
      simpa [dictGet?, h] using ih

theorem dictGet?_dictSet_other (d : Dict) (k k' : String) (v : ℚ) (hne : k' ≠ k) :
    dictGet? (dictSet d k v) k' = dictGet? d k' := by
  have hkk' : (k == k') = false := by
    simp only [beq_eq_false_iff_ne, ne_eq]
    exact fun e => hne e.symm
  induction d with
  | nil => simp [dictSet, dictGet?, hkk']
  | cons p rest ih =>
    by_cases h : p.1 == k
    · have hp : (p.1 == k') = false := by
        rw [beq_iff_eq] at h
        rw [h]
        exact hkk'
      simp [dictSet, h, dictGet?, hp, hkk']
    · by_cases h' : p.1 == k'
      · simp [dictSet, h, dictGet?, h']
      · rw [Bool.not_eq_true] at h'
        simp only [dictSet, h, Bool.false_eq_true, if_false]
        simp only [dictGet?, List.find?] at ih ⊢
        rw [h']
        simpa using ih

/-- C10: for every base gain set and slider values, the slider-derived gain
set holds integer P, I, D and FF entries for all of roll, pitch and yaw, each
the int-truncated multiplier product, with missing base gains read as 0. -/
theorem compute_pids_from_sliders_spec (base_pids : Dict) (s : Sliders) :
    ∀ axis ∈ (["roll", "pitch", "yaw"] : List String),
      dictGet? (compute_pids_from_sliders base_pids s) ("p_" ++ axis)
        = some ((pyInt (s.master * s.tracking * dictGet base_pids ("p_" ++ axis) 0) : ℤ) : ℚ) ∧
      dictGet? (compute_pids_from_sliders base_pids s) ("i_" ++ axis)
        = some ((pyInt (s.master * s.tracking * s.drift * dictGet base_pids ("i_" ++ axis) 0) : ℤ) : ℚ) ∧
      dictGet? (compute_pids_from_sliders base_pids s) ("d_" ++ axis)
        = some ((pyInt (s.master * s.damp * dictGet base_pids ("d_" ++ axis) 0) : ℤ) : ℚ) ∧
      dictGet? (compute_pids_from_sliders base_pids s) ("f_" ++ axis)
        = some ((pyInt (s.master * s.ff * dictGet base_pids ("f_" ++ axis) 0) : ℤ) : ℚ) := by
  intro axis haxis
  fin_cases haxis <;>
    refine ⟨?_, ?_, ?_, ?_⟩ <;>
    simp [compute_pids_from_sliders, dictGet?_dictSet_self, dictGet?_dictSet_other]

/-- C10 witness: the roll axis of a small concrete gain set. -/
theorem compute_pids_from_sliders_spec_witness :
    dictGet? (compute_pids_from_sliders [("p_roll", 45)] ⟨1, 1, 1, 1, 1⟩) "p_roll"
      = some ((pyInt ((1:ℚ) * 1 * dictGet [("p_roll", 45)] "p_roll" 0) : ℤ) : ℚ) :=
  (compute_pids_from_sliders_spec [("p_roll", 45)] ⟨1, 1, 1, 1, 1⟩ "roll"
    (by simp)).1

/-- C9: every relative warning emitted by validate_settings arises from a key
whose original value is present and strictly positive and whose name starts
with p_, i_ or d_, and its ratio is proposed value over that positive
original, so the division is never by zero; keys with missing, zero or
negative originals are silently excluded from the relative check. -/
theorem validate_settings_relative_guard (proposed_pids original_pids : Dict)
    (drone_profile : DroneProfile) (k : String) (q : ℚ)
    (h : Warning.relative k q ∈ validate_settings proposed_pids original_pids drone_profile) :
    ∃ orig v, dictGet? original_pids k = some orig ∧ 0 < orig ∧
      gainKeyStart k = true ∧ (k, v) ∈ proposed_pids ∧ q = v / orig ∧ orig ≠ 0 := by
  unfold validate_settings at h
  rw [List.mem_append] at h
  rcases h with h | h
  · rw [List.mem_filterMap] at h
    obtain ⟨p, hp, heq⟩ := h
    split at heq
    · rename_i orig hfind
      split at heq
      · rename_i hc
        split at heq
        · injection heq with heq
          injection heq with hk hq
          subst hk
          exact ⟨orig, p.2, hfind, hc.1, hc.2, by simpa using hp, hq.symm,
            ne_of_gt hc.1⟩
        · cases heq
      · cases heq
    · cases heq
  · rw [List.mem_filterMap] at h
    obtain ⟨r, _, heq⟩ := h
    split at heq
    · split at heq
      · injection heq with heq
        cases heq
      · cases heq
    · cases heq

/-- C9 witness: a doubled p_roll gain against a positive original produces a
relative warning whose ratio is the proposed value over the original. -/
theorem validate_settings_relative_guard_witness :
    ∃ orig v, dictGet? [("p_roll", 50)] "p_roll" = some orig ∧ 0 < orig ∧
      gainKeyStart "p_roll" = true ∧
      (("p_roll", v) ∈ ([(("p_roll" : String), (100 : ℚ))] : Dict)) ∧
      (2 : ℚ) = v / orig ∧ orig ≠ 0 :=
  validate_settings_relative_guard [("p_roll", 100)] [("p_roll", 50)]
    ⟨5/1000, []⟩ "p_roll" 2 (by
      norm_num [validate_settings, dictGet?, List.find?, gainKeyStart,
        List.filterMap])

theorem stepLoop_invariant (len pre post minDur : ℤ) (hpre : 0 ≤ pre)
    (hmin : 0 ≤ minDur) :
    ∀ (l : List ℕ) (lastEnd : ℤ),
      (∀ w ∈ stepLoop len pre post minDur l lastEnd,
          0 ≤ w.1 ∧ w.1 ≤ w.2.1 ∧ w.2.1 < w.2.2 ∧ w.2.2 < len ∧ lastEnd < w.2.1) ∧
      (stepLoop len pre post minDur l lastEnd).Pairwise (fun a b => a.2.2 < b.2.1)
  | [], lastEnd => by simp [stepLoop]
  | i :: rest, lastEnd => by
    have ihSame := stepLoop_invariant len pre post minDur hpre hmin rest lastEnd
    have ihNew := stepLoop_invariant len pre post minDur hpre hmin rest ((i : ℤ) + post)
    unfold stepLoop
    split_ifs with h1 h2
    · exact ihSame
    · push_neg at h1
      obtain ⟨hgt, hple, hlen⟩ := h1
      constructor
      · intro w hw
        rcases List.mem_cons.mp hw with rfl | hw'
        · dsimp only
          refine ⟨by omega, by omega, by omega, by omega, by omega⟩
        · have hrec := ihNew.1 w hw'
          exact ⟨hrec.1, hrec.2.1, hrec.2.2.1, hrec.2.2.2.1, by omega⟩
      · refine List.pairwise_cons.mpr ⟨?_, ihNew.2⟩
        intro w hw
        have hrec := ihNew.1 w hw
        exact hrec.2.2.2.2
    · exact ihSame

/-- C8 amended: when the window parameters are nonnegative and the computed
sampling frequency is nonnegative, every returned window satisfies
0 <= start_index <= step_index < end_index < len, and the windows are
time-ordered with each step index beyond the previous window end; full
windows may still overlap, since only the step index is checked against the
previous end. -/
theorem find_step_responses_invariants (rc time_us : List ℚ)
    (threshold min_step_duration_ms pre_step_flat_ms post_step_flat_ms : ℚ)
    (hpre : 0 ≤ pre_step_flat_ms) (hmin : 0 ≤ min_step_duration_ms)
    (hfs : 0 ≤ detectorFs time_us) :
    (∀ w ∈ find_step_responses rc time_us threshold min_step_duration_ms
        pre_step_flat_ms post_step_flat_ms,
      0 ≤ w.1 ∧ w.1 ≤ w.2.1 ∧ w.2.1 < w.2.2 ∧ w.2.2 < (rc.length : ℤ)) ∧
    (find_step_responses rc time_us threshold min_step_duration_ms
        pre_step_flat_ms post_step_flat_ms).Pairwise (fun a b => a.2.2 < b.2.1) := by
  unfold find_step_responses
  split_ifs with hempty
  · simp
  · have hpre' : 0 ≤ pyInt (pre_step_flat_ms / 1000 * detectorFs time_us) :=
      pyInt_nonneg (mul_nonneg (div_nonneg hpre (by norm_num)) hfs)
    have hmin' : 0 ≤ pyInt (min_step_duration_ms / 1000 * detectorFs time_us) :=
      pyInt_nonneg (mul_nonneg (div_nonneg hmin (by norm_num)) hfs)
    have H := stepLoop_invariant (rc.length : ℤ)
      (pyInt (pre_step_flat_ms / 1000 * detectorFs time_us))
      (pyInt (post_step_flat_ms / 1000 * detectorFs time_us))
      (pyInt (min_step_duration_ms / 1000 * detectorFs time_us))
      hpre' hmin' (potentialSteps rc threshold) (-1)
    exact ⟨fun w hw => ⟨(H.1 w hw).1, (H.1 w hw).2.1, (H.1 w hw).2.2.1,
      (H.1 w hw).2.2.2.1⟩, H.2⟩

/-- C8 counterexample: two accepted steps four samples apart produce the
windows (0, 2, 5) and (4, 6, 9), whose index ranges overlap (4 <= 5), so one
detection run can return overlapping windows. -/
theorem find_step_responses_overlap_counterexample :
    find_step_responses rc11 t11 10 1 2 3 = [(0, 2, 5), (4, 6, 9)] ∧
    ¬ (find_step_responses rc11 t11 10 1 2 3).Pairwise
        (fun a b => a.2.2 < b.1) := by
  have hfs : detectorFs t11 = 1100 := by
    norm_num [detectorFs, t11, List.range_succ]
  have hpot : potentialSteps rc11 10 = [2, 6] := by
    norm_num [potentialSteps, rc11, List.range_succ]
  have hval : find_step_responses rc11 t11 10 1 2 3 = [(0, 2, 5), (4, 6, 9)] := by
    rw [find_step_responses]
    rw [if_neg (by norm_num [rc11])]
    rw [hfs, hpot]
    have h1 : pyInt ((2:ℚ) / 1000 * 1100) = 2 := by norm_num [pyInt]
    have h2 : pyInt ((3:ℚ) / 1000 * 1100) = 3 := by norm_num [pyInt]
    have h3 : pyInt ((1:ℚ) / 1000 * 1100) = 1 := by norm_num [pyInt]
    dsimp only
    rw [h1, h2, h3]
    have hlen : (rc11.length : ℤ) = 11 := by norm_num [rc11]
    rw [hlen]
    norm_num [stepLoop]
  refine ⟨hval, ?_⟩
  rw [hval]
  intro hpw
  rw [List.pairwise_cons] at hpw
  have := hpw.1 (4, 6, 9) (List.mem_cons_self _ _)
  norm_num at this

/-- C8 amended witness: the invariants instantiated on the rc11 trace. -/
theorem find_step_responses_invariants_witness :
    (∀ w ∈ find_step_responses rc11 t11 10 1 2 3,
      0 ≤ w.1 ∧ w.1 ≤ w.2.1 ∧ w.2.1 < w.2.2 ∧ w.2.2 < (rc11.length : ℤ)) ∧
    (find_step_responses rc11 t11 10 1 2 3).Pairwise (fun a b => a.2.2 < b.2.1) :=
  find_step_responses_invariants rc11 t11 10 1 2 3 (by norm_num) (by norm_num)
    (by norm_num [detectorFs, t11, List.range_succ])

theorem filter_range_single (p : ℕ → Bool) (k : ℕ) :
    ∀ n : ℕ, k < n → (∀ i, i < n → (p i = true ↔ i = k)) →
      (List.range n).filter p = [k]
  | 0, hk, _ => absurd hk (by omega)
  | n + 1, hk, h => by
    rw [List.range_succ, List.filter_append]
    by_cases hkn : k = n
    · subst hkn
      have h1 : (List.range k).filter p = [] := by
        rw [List.filter_eq_nil_iff]
        intro a ha hpa
        rw [List.mem_range] at ha
        exact absurd ((h a (by omega)).mp hpa) (by omega)
      have h2 : p k = true := (h k (by omega)).mpr rfl
      simp [h1, h2]
    · have h1 : (List.range n).filter p = [k] :=
        filter_range_single p k n (by omega) (fun i hi => h i (by omega))
      have h2 : p n = false := by
        by_cases hb : p n = true
        · exact absurd (((h n (by omega)).mp hb).symm) hkn
        · exact Bool.not_eq_true _ ▸ hb  -- hmm
      rw [h1]
      simp [h2]

theorem c6Signal_length : c6Signal.length = 2000 := by
  unfold c6Signal
  rw [List.length_append, List.length_replicate, List.length_replicate]

theorem c6Signal_getD (i : ℕ) :
    c6Signal.getD i 0 = if i < 1000 then (0:ℚ) else if i < 2000 then 500 else 0 := by
  unfold c6Signal
  rw [List.getD_eq_getElem?_getD, List.getElem?_append, List.length_replicate]
  by_cases h1 : i < 1000
  · rw [if_pos h1, if_pos h1, List.getElem?_replicate, if_pos h1]
    rfl
  · rw [if_neg h1, if_neg h1, List.getElem?_replicate]
    by_cases h2 : i < 2000
    · rw [if_pos (by omega : i - 1000 < 1000), if_pos h2]
      rfl
    · rw [if_neg (by omega : ¬ (i - 1000 < 1000)), if_neg h2]
      rfl

theorem c6_potential : potentialSteps c6Signal 300 = [1000] := by
  unfold potentialSteps
  rw [c6Signal_length]
  apply filter_range_single _ 1000 2000 (by norm_num)
  intro i hi
  rw [Bool.and_eq_true, decide_eq_true_eq, decide_eq_true_eq]
  rw [c6Signal_getD i, c6Signal_getD (i - 1)]
  constructor
  · rintro ⟨hpos, habs⟩
    by_cases h1 : i < 1000
    · rw [if_pos h1, if_pos (by omega)] at habs
      norm_num at habs
    · by_cases h2 : i = 1000
      · exact h2
      · rw [if_neg h1, if_pos (by omega), if_neg (by omega : ¬ (i - 1 < 1000)),
          if_pos (by omega)] at habs
        norm_num at habs
  · rintro rfl
    refine ⟨by norm_num, ?_⟩
    rw [if_neg (by norm_num), if_pos (by norm_num), if_pos (by norm_num)]
    norm_num

theorem c6_fs : detectorFs c6Time = 4000000 / 1999 := by
  unfold detectorFs c6Time
  rw [List.length_map, List.length_range]
  rw [List.getLast?_map, List.head?_map]
  rw [List.getLast?_eq_getElem?, List.length_range,
    List.getElem?_range (by norm_num : 2000 - 1 < 2000)]
  rw [List.head?_eq_getElem?, List.getElem?_range (by norm_num : 0 < 2000)]
  norm_num

/-- C6: on the synthetic command flat at 0 for 1000 samples then flat at 500
for 1000 samples at 2000 Hz, the detector with threshold 300, pre-window
10 ms and post-window 100 ms returns exactly one window, whose step index is
exactly 1000 (within the claimed tolerance of one sample). -/
theorem find_step_responses_synthetic_step :
    find_step_responses c6Signal c6Time 300 40 10 100 = [(980, 1000, 1200)] := by
  rw [find_step_responses]
  rw [if_neg (by rw [List.isEmpty_iff, ← List.length_eq_zero, c6Signal_length]; norm_num)]
  rw [c6_fs, c6_potential]
  dsimp only
  have h1 : pyInt ((10:ℚ) / 1000 * (4000000 / 1999)) = 20 := by norm_num [pyInt]
  have h2 : pyInt ((100:ℚ) / 1000 * (4000000 / 1999)) = 200 := by norm_num [pyInt]
  have h3 : pyInt ((40:ℚ) / 1000 * (4000000 / 1999)) = 80 := by norm_num [pyInt]
  rw [h1, h2, h3]
  have hlen : (c6Signal.length : ℤ) = 2000 := by rw [c6Signal_length]; norm_num
  rw [hlen]
  norm_num [stepLoop]

end OpenTuner
